import Mathlib

/-!
Verification development for make_plandata.py: a script that expands a table
of recurring maintenance work items into a year-by-year long-term repair plan.

The script is embedded shallowly:
  - a CSV cell value is a `Field` (Python values flowing through the row lists
    are either `int` or `str`);
  - Python rows / records are `List Field`, the growing plan list is
    `List (List Field)`;
  - Python exceptions (IndexError on `row[i]`, ValueError on `int(...)`,
    TypeError on sorting incomparable values) are modelled by `Option`:
    `none` means the program raises and terminates without producing output.

Every definition mirrors the corresponding function of src/make_plandata.py;
the source line numbers are cited on each definition.
-/

namespace MakePlandata

/-- A value stored in a row while it flows through the script: CSV input cells
are strings, and the script splices Python ints (years, the fixed quantity 1,
the fixed actual amount 0) into the records it builds. -/
inductive Field where
  | int : Int → Field
  | str : String → Field
deriving DecidableEq

/-- Python builtin int(...) as used on row fields (lines 156, 166, 188):
identity on an int, decimal parse on a string, exception (`none`) otherwise. -/
def pyInt : Field → Option Int
  | .int n => some n
  | .str s => s.toInt?

/-- The year value carried by a field, with no string coercion: Python
comparisons `cnt_year in unique_year_list` and the sort in fill_dummydata
never equate an int with a str.  `none` marks a non-integer year, which the
sort in fill_dummydata cannot order against ints (TypeError). -/
def Field.asYear : Field → Option Int
  | .int n => some n
  | .str _ => none

/-- Python list.insert(i, x): inserts x before index i, appending at the end
when i exceeds the length. -/
def pyInsert (l : List α) (i : Nat) (x : α) : List α :=
  l.take i ++ x :: l.drop i

/-- Python str.strip() restricted to the whitespace characters of
Char.isWhitespace (the whitespace that occurs in this data). Line 128, 132. -/
def strip (s : String) : String :=
  ⟨((s.data.dropWhile Char.isWhitespace).reverse.dropWhile Char.isWhitespace).reverse⟩

/-- Line 25: upper bound used both for the horizon span and the per-item
iteration count. -/
def limmit_num : Nat := 100

/-- Lines 126-136 of read_csv: the per-row loop over the data rows (the rows
after the header).  A fully blank row is skipped; a row whose first cell
strips to the empty string fails the whole read (`none`, Python False);
otherwise the row is kept. -/
def read_rows : List (List String) → Option (List (List String))
  | [] => some []
  | row :: rest =>
    if row.isEmpty || row.all (fun cell => strip cell = "") then
      read_rows rest
    else
      match row.head? with
      | none => none
      | some c0 =>
        if strip c0 = "" then none
        else (read_rows rest).map (fun rs => row :: rs)

/-- Lines 89-145: read_csv.  The file system is abstracted as
`Option (List (List String))`: `none` stands for a missing file or a CSV
parse error (lines 113-115 and 138-143, both of which return False), and
`some file` for the parsed raw rows.  `next(reader, None)` discards the
header row (line 124); the remaining rows go through `read_rows`.  A `none`
result is the Python return value False. -/
def read_csv : Option (List (List String)) → Option (List (List String))
  | none => none
  | some file => read_rows (file.drop 1)

/-- Lines 177-184 of add_planlist: build tmplist from a row and the scheduled
year.  tmplist = row[:]; del tmplist[3:5]; then the four inserts:
year at 1, quantity 1 at 4, unit at 5, actual amount 0 at 7. -/
def tmplistOf (row : List Field) (yyyy : Int) : List Field :=
  let t := row.take 3 ++ row.drop 5
  let t := pyInsert t 1 (.int yyyy)
  let t := pyInsert t 4 (.int 1)
  let t := pyInsert t 5 (.str "式")
  pyInsert t 7 (.int 0)

/-- Lines 172-191: add_planlist.  Appends tmplist to plan_list when
yyyy >= start_year, then advances the year by int(row[4]).  A row without a
parseable field 4 raises (`none`). -/
def add_planlist (row : List Field) (yyyy start_year : Int)
    (plan_list : List (List Field)) : Option (List (List Field) × Int) :=
  let tmplist := tmplistOf row yyyy
  let plan_list := if yyyy ≥ start_year then plan_list ++ [tmplist] else plan_list
  match row[4]? with
  | none => none
  | some f =>
    match pyInt f with
    | none => none
    | some p => some (plan_list, yyyy + p)

/-- Lines 158-167: the inner loop of make_plan for one row.  The fuel
parameter counts the remaining iterations of `for i in range(1, limmit_num)`,
which performs limmit_num - 1 = 99 iterations.  Each iteration first checks
`yyyy >= last_year`, then calls add_planlist, then breaks when
int(row[4]) < 1 (the one-time-work case). -/
def make_planLoop (row : List Field) (start_year last_year : Int) :
    Nat → Int → List (List Field) → Option (List (List Field))
  | 0, _, plan_list => some plan_list
  | n + 1, yyyy, plan_list =>
    if yyyy ≥ last_year then some plan_list
    else
      match add_planlist row yyyy start_year plan_list with
      | none => none
      | some (plan_list2, yyyy2) =>
        match row[4]? with
        | none => none
        | some f =>
          match pyInt f with
          | none => none
          | some p =>
            if p < 1 then some plan_list2
            else make_planLoop row start_year last_year n yyyy2 plan_list2

/-- Lines 153-169: the outer loop of make_plan over the data rows, threading
the shared plan_list.  yyyy = int(row[3]) raises (`none`) on a row without a
parseable field 3. -/
def make_planRows (start_year last_year : Int) :
    List (List Field) → List (List Field) → Option (List (List Field))
  | [], plan_list => some plan_list
  | row :: rest, plan_list =>
    match row[3]? with
    | none => none
    | some f =>
      match pyInt f with
      | none => none
      | some yyyy =>
        match make_planLoop row start_year last_year (limmit_num - 1) yyyy plan_list with
        | none => none
        | some plan_list2 => make_planRows start_year last_year rest plan_list2

/-- Lines 148-169: make_plan. -/
def make_plan (data_list : List (List Field)) (start_year last_year : Int) :
    Option (List (List Field)) :=
  make_planRows start_year last_year data_list []

/-- Line 215-216: the dummy record for a year with no scheduled work,
dummy_data = [5, 0, "ダミー工事", "ダミー工事", 1, "式", 0, 0, ""] with
dummy_data[1] = cnt_year. -/
def dummy_record (cnt_year : Int) : List Field :=
  [.int 5, .int cnt_year, .str "ダミー工事", .str "ダミー工事",
   .int 1, .str "式", .int 0, .int 0, .str ""]

/-- Python range(start_year, last_year) over integers (line 209). -/
def intRange (start_year last_year : Int) : List Int :=
  List.map (fun k : Nat => start_year + (k : Int))
    (List.range (last_year - start_year).toNat)

/-- Lines 201-203 of fill_dummydata: year_list = [i[1] for i in plan_list],
extracting the year of every record.  A record without an index 1 raises
IndexError; a non-int year would make the subsequent sort raise TypeError
against the int years this program produces, so both are `none`. -/
def year_list_of : List (List Field) → Option (List Int)
  | [] => some []
  | rec :: rest =>
    match rec[1]? with
    | none => none
    | some f =>
      match f.asYear with
      | none => none
      | some y =>
        match year_list_of rest with
        | none => none
        | some ys => some (y :: ys)

/-- Lines 194-220: fill_dummydata.  unique_year_list = sorted set of the
years already present; then for each cnt_year of range(start_year, last_year)
in ascending order, a dummy record is appended exactly when cnt_year is not
in unique_year_list.  The filter keeps the ascending order of the Python
loop. -/
def fill_dummydata (plan_list : List (List Field)) (start_year last_year : Int) :
    Option (List (List Field)) :=
  match year_list_of plan_list with
  | none => none
  | some year_list =>
    let unique_year_list := year_list.dedup.mergeSort (fun a b => decide (a ≤ b))
    some (plan_list ++
      ((intRange start_year last_year).filter
          (fun cnt_year => decide (cnt_year ∉ unique_year_list))).map dummy_record)

/-- Lines 67-72 of main: the planning-window validation.  `some (msg, code)`
means the run aborts printing msg and exiting with status code; sys.exit()
with no argument exits with status 0.  `none` means the window is accepted. -/
def main_window_check (start_year last_year : Int) : Option (String × Nat) :=
  if last_year ≤ start_year then
    some ("計画の最終年度か計画の初年度を見直ししてください。", 0)
  else if last_year - start_year > (limmit_num : Int) then
    some (s!"計画期間は{limmit_num}年以内にしてください。", 0)
  else none

/-- Lines 224-239: save_csv, reduced to its observable decision: it writes
(and returns True) exactly when data_list is non-empty; on an empty list it
prints a message and returns False without writing (lines 228-230). -/
def save_csv (data_list : List (List Field)) : Bool :=
  if data_list.isEmpty then false else true

/-- The observable outcome of one run of main. -/
inductive RunOutcome where
  | aborted : String → Nat → RunOutcome
  | crashed : RunOutcome
  | wrote : List (List Field) → RunOutcome
  | writeSkipped : RunOutcome
deriving DecidableEq

/-- Lines 28-85: main, after argument parsing.  The window check runs first
(lines 67-72).  read_csv may return False (`none`); main passes its result to
make_plan unchecked (lines 75-78), and iterating over False raises TypeError,
so the run crashes.  A crash inside make_plan or fill_dummydata (unparseable
int fields, line 156/166/188) likewise ends the run abnormally.  Otherwise
save_csv either writes the full plan or skips an empty one. -/
def main_run (file : Option (List (List String))) (start_year last_year : Int) :
    RunOutcome :=
  match main_window_check start_year last_year with
  | some (msg, code) => .aborted msg code
  | none =>
    match read_csv file with
    | none => .crashed
    | some rows =>
      match make_plan (rows.map (fun r => r.map Field.str)) start_year last_year with
      | none => .crashed
      | some plan_list =>
        match fill_dummydata plan_list start_year last_year with
        | none => .crashed
        | some full_plan_list =>
          if save_csv full_plan_list then .wrote full_plan_list else .writeSkipped

/-! Basic lemmas about the embedding. -/

theorem pyInsert_nil (i : Nat) (x : α) : pyInsert ([] : List α) i x = [x] := by
  simp [pyInsert]

theorem pyInsert_zero (l : List α) (x : α) : pyInsert l 0 x = x :: l := by
  simp [pyInsert]

theorem pyInsert_cons_succ (a : α) (l : List α) (i : Nat) (x : α) :
    pyInsert (a :: l) (i + 1) x = a :: pyInsert l i x := by
  simp [pyInsert]

/-- The shape of tmplist for a well-formed 7-field input row: the year lands
at index 1, the fixed quantity 1 at index 4, the unit at index 5 and the
fixed actual amount 0 at index 7, while the raw first-year and period fields
d and e are dropped. -/
theorem tmplistOf_seven (a b c d e f g : Field) (yyyy : Int) :
    tmplistOf [a, b, c, d, e, f, g] yyyy =
      [a, .int yyyy, b, c, .int 1, .str "式", f, .int 0, g] := rfl

/-- Whatever the row shape, the scheduled year sits at index 1 of tmplist as
soon as the row is non-empty. -/
theorem tmplistOf_getElem_one (row : List Field) (hrow : row ≠ []) (yyyy : Int) :
    (tmplistOf row yyyy)[1]? = some (.int yyyy) := by
  obtain ⟨a, t, rfl⟩ := List.exists_cons_of_ne_nil hrow
  have hbase : ∃ l, (a :: t).take 3 ++ (a :: t).drop 5 = a :: l := by
    cases t with
    | nil => exact ⟨[], rfl⟩
    | cons b t2 =>
      cases t2 with
      | nil => exact ⟨[b], rfl⟩
      | cons c t3 => exact ⟨b :: c :: t3.drop 2, by simp [List.take, List.drop]⟩
  obtain ⟨l, hl⟩ := hbase
  show (pyInsert (pyInsert (pyInsert (pyInsert ((a :: t).take 3 ++ (a :: t).drop 5) 1
      (.int yyyy)) 4 (.int 1)) 5 (.str "式")) 7 (.int 0))[1]? = some (.int yyyy)
  rw [hl]
  simp [pyInsert_cons_succ, pyInsert_zero]

theorem mem_intRange {s e y : Int} : y ∈ intRange s e ↔ s ≤ y ∧ y < e := by
  simp only [intRange, List.mem_map, List.mem_range]
  constructor
  · rintro ⟨k, hk, rfl⟩
    omega
  · rintro ⟨h1, h2⟩
    exact ⟨(y - s).toNat, by omega, by omega⟩

theorem nodup_intRange (s e : Int) : (intRange s e).Nodup := by
  unfold intRange
  apply List.Nodup.map
  · intro a b h
    simp only at h
    omega
  · exact List.nodup_range _

theorem length_intRange (s e : Int) : (intRange s e).length = (e - s).toNat := by
  unfold intRange
  rw [List.length_map, List.length_range]

/-! Structural lemmas about make_plan. -/

theorem add_planlist_eq (row : List Field) (yyyy start_year : Int)
    (plan_list : List (List Field)) :
    add_planlist row yyyy start_year plan_list =
      match (row[4]?).bind pyInt with
      | none => none
      | some p =>
        some ((if yyyy ≥ start_year then plan_list ++ [tmplistOf row yyyy] else plan_list),
          yyyy + p) := by
  unfold add_planlist
  cases h4 : row[4]? with
  | none => rfl
  | some f =>
    cases hp : pyInt f with
    | none => rfl
    | some p => rfl

theorem make_planLoop_mem {row : List Field} {s e : Int} :
    ∀ n yyyy acc out, make_planLoop row s e n yyyy acc = some out →
      ∀ rec ∈ out, rec ∈ acc ∨ ∃ y, s ≤ y ∧ rec = tmplistOf row y := by
  intro n
  induction n with
  | zero =>
    intro yyyy acc out h rec hrec
    simp only [make_planLoop] at h
    subst_eqs
    exact Or.inl hrec
  | succ k ih =>
    intro yyyy acc out h rec hrec
    simp only [make_planLoop] at h
    by_cases hy : yyyy >= e
    · rw [if_pos hy] at h
      subst_eqs
      exact Or.inl hrec
    · rw [if_neg hy] at h
      rw [add_planlist_eq] at h
      cases h4 : (row[4]?).bind pyInt with
      | none => rw [h4] at h; exact absurd h (by simp)
      | some p =>
        rw [h4] at h
        simp only at h
        obtain ⟨f, hf4, hfp⟩ := Option.bind_eq_some.mp h4
        rw [hf4] at h
        dsimp only at h
        rw [hfp] at h
        dsimp only at h
        by_cases hp1 : p < 1
        · rw [if_pos hp1] at h
          subst_eqs
          by_cases hys : yyyy ≥ s
          · rw [if_pos hys] at hrec
            rcases List.mem_append.mp hrec with hl | hr
            · exact Or.inl hl
            · exact Or.inr ⟨yyyy, hys, List.mem_singleton.mp hr⟩
          · rw [if_neg hys] at hrec
            exact Or.inl hrec
        · rw [if_neg hp1] at h
          rcases ih _ _ _ h rec hrec with hl | hr
          · by_cases hys : yyyy ≥ s
            · rw [if_pos hys] at hl
              rcases List.mem_append.mp hl with hl2 | hr2
              · exact Or.inl hl2
              · exact Or.inr ⟨yyyy, hys, List.mem_singleton.mp hr2⟩
            · rw [if_neg hys] at hl
              exact Or.inl hl
          · exact Or.inr hr

theorem make_planLoop_isSome {row : List Field} {p : Int}
    (hp : (row[4]?).bind pyInt = some p) (s e : Int) :
    ∀ n yyyy acc, ∃ out, make_planLoop row s e n yyyy acc = some out := by
  intro n
  induction n with
  | zero =>
    intro yyyy acc
    exact ⟨acc, rfl⟩
  | succ k ih =>
    intro yyyy acc
    simp only [make_planLoop]
    by_cases hy : yyyy ≥ e
    · rw [if_pos hy]
      exact ⟨acc, rfl⟩
    · rw [if_neg hy, add_planlist_eq, hp]
      dsimp only
      obtain ⟨f, hf4, hfp⟩ := Option.bind_eq_some.mp hp
      rw [hf4]
      dsimp only
      rw [hfp]
      dsimp only
      by_cases hp1 : p < 1
      · rw [if_pos hp1]
        exact ⟨_, rfl⟩
      · rw [if_neg hp1]
        exact ih _ _

theorem make_planRows_mem {s e : Int} :
    ∀ rows acc out, make_planRows s e rows acc = some out →
      ∀ rec ∈ out, rec ∈ acc ∨
        ∃ row ∈ rows, row ≠ [] ∧ ∃ y, s ≤ y ∧ rec = tmplistOf row y := by
  intro rows
  induction rows with
  | nil =>
    intro acc out h rec hrec
    simp only [make_planRows] at h
    subst_eqs
    exact Or.inl hrec
  | cons row rest ih =>
    intro acc out h rec hrec
    simp only [make_planRows] at h
    cases h3 : row[3]? with
    | none => rw [h3] at h; exact absurd h (by simp)
    | some f =>
      rw [h3] at h
      dsimp only at h
      cases hyf : pyInt f with
      | none => rw [hyf] at h; exact absurd h (by simp)
      | some yyyy =>
        rw [hyf] at h
        dsimp only at h
        cases hloop : make_planLoop row s e (limmit_num - 1) yyyy acc with
        | none => rw [hloop] at h; exact absurd h (by simp)
        | some acc2 =>
          rw [hloop] at h
          dsimp only at h
          have hrow_ne : row ≠ [] := by
            intro hnil
            rw [hnil] at h3
            simp at h3
          rcases ih _ _ h rec hrec with hl | ⟨row2, hrow2, hne2, y, hy, hrec2⟩
          · rcases make_planLoop_mem _ _ _ _ hloop rec hl with hl2 | ⟨y, hy, hrec2⟩
            · exact Or.inl hl2
            · exact Or.inr ⟨row, List.mem_cons_self _ _, hrow_ne, y, hy, hrec2⟩
          · exact Or.inr ⟨row2, List.mem_cons_of_mem _ hrow2, hne2, y, hy, hrec2⟩

theorem make_planRows_isSome {s e : Int} :
    ∀ rows acc,
      (∀ row ∈ rows, ((row[3]?).bind pyInt).isSome ∧ ((row[4]?).bind pyInt).isSome) →
      ∃ out, make_planRows s e rows acc = some out := by
  intro rows
  induction rows with
  | nil =>
    intro acc _
    exact ⟨acc, rfl⟩
  | cons row rest ih =>
    intro acc hwf
    obtain ⟨h3s, h4s⟩ := hwf row (List.mem_cons_self _ _)
    obtain ⟨yyyy, h3⟩ := Option.isSome_iff_exists.mp h3s
    obtain ⟨p, h4⟩ := Option.isSome_iff_exists.mp h4s
    obtain ⟨f, hf3, hfy⟩ := Option.bind_eq_some.mp h3
    obtain ⟨out1, hloop⟩ := make_planLoop_isSome h4 s e (limmit_num - 1) yyyy acc
    simp only [make_planRows]
    rw [hf3]
    dsimp only
    rw [hfy]
    dsimp only
    rw [hloop]
    dsimp only
    exact ih _ (fun r hr => hwf r (List.mem_cons_of_mem _ hr))

/-- Every record make_plan produces carries its scheduled year at index 1,
and that year is at least start_year. -/
theorem make_plan_rec_year {dl pl : List (List Field)} {s e : Int}
    (h : make_plan dl s e = some pl) :
    ∀ rec ∈ pl, ∃ y, rec[1]? = some (.int y) ∧ s ≤ y := by
  intro rec hrec
  rcases make_planRows_mem _ _ _ h rec hrec with hl | ⟨row, _, hne, y, hy, hrec2⟩
  · exact absurd hl (List.not_mem_nil rec)
  · exact ⟨y, hrec2 ▸ tmplistOf_getElem_one row hne y, hy⟩

/-! Lemmas about year extraction and fill_dummydata. -/

theorem year_list_of_isSome {pl : List (List Field)}
    (h : ∀ rec ∈ pl, ∃ y, rec[1]? = some (.int y)) :
    ∃ ys, year_list_of pl = some ys := by
  induction pl with
  | nil => exact ⟨[], rfl⟩
  | cons rec rest ih =>
    obtain ⟨y, h1⟩ := h rec (List.mem_cons_self _ _)
    obtain ⟨ys, hys⟩ := ih (fun r hr => h r (List.mem_cons_of_mem _ hr))
    refine ⟨y :: ys, ?_⟩
    simp only [year_list_of]
    rw [h1]
    dsimp only [Field.asYear]
    rw [hys]

theorem year_list_of_mem :
    ∀ {pl : List (List Field)} {ys : List Int}, year_list_of pl = some ys →
      ∀ y : Int, y ∈ ys ↔ ∃ rec ∈ pl, rec[1]? = some (.int y) := by
  intro pl
  induction pl with
  | nil =>
    intro ys h y
    simp only [year_list_of] at h
    subst_eqs
    simp
  | cons rec rest ih =>
    intro ys h y
    simp only [year_list_of] at h
    cases h1 : rec[1]? with
    | none => rw [h1] at h; exact absurd h (by simp)
    | some f =>
      rw [h1] at h
      dsimp only at h
      cases hf : f.asYear with
      | none => rw [hf] at h; exact absurd h (by simp)
      | some y0 =>
        rw [hf] at h
        dsimp only at h
        cases hrest : year_list_of rest with
        | none => rw [hrest] at h; exact absurd h (by simp)
        | some ys0 =>
          rw [hrest] at h
          dsimp only at h
          have hfy : f = .int y0 := by
            cases f with
            | int n => simp [Field.asYear] at hf; rw [hf]
            | str s => simp [Field.asYear] at hf
          subst hfy
          obtain rfl : y0 :: ys0 = ys := by injection h
          constructor
          · intro hy
            rcases List.mem_cons.mp hy with rfl | hy2
            · exact ⟨rec, List.mem_cons_self _ _, h1⟩
            · obtain ⟨r, hr, hr1⟩ := (ih hrest y).mp hy2
              exact ⟨r, List.mem_cons_of_mem _ hr, hr1⟩
          · rintro ⟨r, hr, hr1⟩
            rcases List.mem_cons.mp hr with rfl | hr2
            · rw [h1] at hr1
              injection hr1 with hr1
              injection hr1 with hr1
              exact List.mem_cons.mpr (Or.inl hr1.symm)
            · exact List.mem_cons.mpr (Or.inr ((ih hrest y).mpr ⟨r, hr2, hr1⟩))

theorem year_list_of_length :
    ∀ {pl : List (List Field)} {ys : List Int}, year_list_of pl = some ys →
      ys.length = pl.length := by
  intro pl
  induction pl with
  | nil =>
    intro ys h
    simp only [year_list_of] at h
    subst_eqs
    rfl
  | cons rec rest ih =>
    intro ys h
    simp only [year_list_of] at h
    cases h1 : rec[1]? with
    | none => rw [h1] at h; exact absurd h (by simp)
    | some f =>
      rw [h1] at h
      dsimp only at h
      cases hf : f.asYear with
      | none => rw [hf] at h; exact absurd h (by simp)
      | some y0 =>
        rw [hf] at h
        dsimp only at h
        cases hrest : year_list_of rest with
        | none => rw [hrest] at h; exact absurd h (by simp)
        | some ys0 =>
          rw [hrest] at h
          dsimp only at h
          obtain rfl : y0 :: ys0 = ys := by injection h
          simp [ih hrest]

theorem year_list_of_append :
    ∀ {l1 l2 : List (List Field)} {a b : List Int},
      year_list_of l1 = some a → year_list_of l2 = some b →
      year_list_of (l1 ++ l2) = some (a ++ b) := by
  intro l1
  induction l1 with
  | nil =>
    intro l2 a b h1 h2
    simp only [year_list_of] at h1
    subst_eqs
    simpa using h2
  | cons rec rest ih =>
    intro l2 a b h1 h2
    simp only [year_list_of] at h1
    cases hg : rec[1]? with
    | none => rw [hg] at h1; exact absurd h1 (by simp)
    | some f =>
      rw [hg] at h1
      dsimp only at h1
      cases hf : f.asYear with
      | none => rw [hf] at h1; exact absurd h1 (by simp)
      | some y0 =>
        rw [hf] at h1
        dsimp only at h1
        cases hrest : year_list_of rest with
        | none => rw [hrest] at h1; exact absurd h1 (by simp)
        | some ys0 =>
          rw [hrest] at h1
          dsimp only at h1
          obtain rfl : y0 :: ys0 = a := by injection h1
          simp only [List.cons_append, year_list_of, List.append_eq]
          rw [hg]
          dsimp only
          rw [hf]
          dsimp only
          rw [ih hrest h2]

theorem year_list_of_dummies (ms : List Int) :
    year_list_of (ms.map dummy_record) = some ms := by
  induction ms with
  | nil => rfl
  | cons m rest ih =>
    simp only [List.map_cons, year_list_of]
    rw [show (dummy_record m)[1]? = some (.int m) from rfl]
    dsimp only [Field.asYear]
    rw [ih]

theorem fill_dummydata_eq {pl : List (List Field)} {ys : List Int} (s e : Int)
    (h : year_list_of pl = some ys) :
    fill_dummydata pl s e = some (pl ++
      ((intRange s e).filter
        (fun y => decide (y ∉ ys.dedup.mergeSort (fun a b => decide (a ≤ b))))).map
          dummy_record) := by
  unfold fill_dummydata
  rw [h]

theorem mem_sorted_dedup {ys : List Int} {y : Int} :
    y ∈ ys.dedup.mergeSort (fun a b => decide (a ≤ b)) ↔ y ∈ ys := by
  rw [List.mem_mergeSort, List.mem_dedup]

/-- A list of length 7 is a literal 7-tuple of its elements. -/
theorem length_eq_seven {α : Type} {l : List α} (h : l.length = 7) :
    ∃ a b c d e f g, l = [a, b, c, d, e, f, g] := by
  rcases l with _ | ⟨a, _ | ⟨b, _ | ⟨c, _ | ⟨d, _ | ⟨e, _ | ⟨f, _ | ⟨g, _ | ⟨x, t⟩⟩⟩⟩⟩⟩⟩⟩ <;>
    simp only [List.length_cons, List.length_nil] at h <;> try omega
  exact ⟨a, b, c, d, e, f, g, rfl⟩

/-- Splitting a filter on a membership test and its negation recovers the
length of the list. -/
theorem length_filter_split (l u : List Int) :
    (l.filter (fun y => decide (y ∉ u))).length +
      (l.filter (fun y => decide (y ∈ u))).length = l.length := by
  induction l with
  | nil => rfl
  | cons a t ih =>
    by_cases h : a ∈ u
    · rw [List.filter_cons_of_neg (by simp [h]), List.filter_cons_of_pos (by simp [h])]
      simp only [List.length_cons]
      omega
    · rw [List.filter_cons_of_pos (by simp [h]), List.filter_cons_of_neg (by simp [h])]
      simp only [List.length_cons]
      omega

/-! Claim theorems. -/

set_option maxRecDepth 40000 in
/-- C1: refuted as stated; the code drops a due occurrence at the window
edge.  For the item with first-occurrence year 0 and period 1 inside the
valid window [0, 100) (span 100, allowed by main), the claim demands
floor((100 - 1 - 0)/1) + 1 = 100 records, one per year 0..99.  The code
emits only 99 records and none of them is for year 99, because the loop
`for i in range(1, limmit_num)` iterates 99 times although the comment on
line 157 announces limmit_num (= 100) iterations. -/
theorem C1_cap_drops_final_year :
    (make_plan [[Field.str "1", Field.str "外壁", Field.str "塗装",
        Field.int 0, Field.int 1, Field.str "100", Field.str ""]] 0 100).map
      (fun l => (l.length, decide (∃ rec ∈ l, rec[1]? = some (Field.int 99)))) =
      some (99, false) := by rfl

set_option maxRecDepth 40000 in
/-- C2: refuted as stated; on the same input the iteration cap, not the
window check, is what stops the per-item loop: the loop runs out of its 99
iterations with the cursor at 99, still below end_year 100, and granting it
one more iteration (fuel limmit_num instead of the limmit_num - 1 iterations
range(1, limmit_num) performs) produces one more record. -/
theorem C2_cap_stops_loop :
    ((make_planLoop [Field.str "1", Field.str "外壁", Field.str "塗装",
        Field.int 0, Field.int 1, Field.str "100", Field.str ""] 0 100
        (limmit_num - 1) 0 []).map List.length = some 99) ∧
    ((make_planLoop [Field.str "1", Field.str "外壁", Field.str "塗装",
        Field.int 0, Field.int 1, Field.str "100", Field.str ""] 0 100
        limmit_num 0 []).map List.length = some 100) := ⟨rfl, rfl⟩

/-- C4 counterexample: on the invalid window start_year 5, end_year 3 the
driver does abort with a diagnostic, but the exit status is 0 (sys.exit()
with no argument), not non-zero as the claim states. -/
theorem C4_counterexample :
    main_window_check 5 3 =
      some ("計画の最終年度か計画の初年度を見直ししてください。", 0) ∧
    ¬ ∃ msg code, main_window_check 5 3 = some (msg, code) ∧ code ≠ 0 := by
  refine ⟨rfl, ?_⟩
  rintro ⟨msg, code, hmc, hcode⟩
  have h2 : (("計画の最終年度か計画の初年度を見直ししてください。", 0) : String × Nat) =
      (msg, code) := by
    have h1 : (some ("計画の最終年度か計画の初年度を見直ししてください。", 0) :
        Option (String × Nat)) = some (msg, code) := by
      rw [show (some ("計画の最終年度か計画の初年度を見直ししてください。", 0) :
        Option (String × Nat)) = main_window_check 5 3 from rfl, hmc]
    injection h1
  exact hcode (congrArg Prod.snd h2).symm

/-- C4 amended: if end_year <= start_year or end_year - start_year > 100,
the driver prints a diagnostic and aborts before reading, expanding or
gap-filling, producing no output, but it exits with status 0. -/
theorem C4_window_abort (file : Option (List (List String))) (s e : Int)
    (h : e ≤ s ∨ e - s > (limmit_num : Int)) :
    ∃ msg, main_window_check s e = some (msg, 0) ∧
      main_run file s e = .aborted msg 0 := by
  have hc : ∃ msg, main_window_check s e = some (msg, 0) := by
    unfold main_window_check
    rcases h with h | h
    · rw [if_pos h]
      exact ⟨_, rfl⟩
    · rw [if_neg (by omega), if_pos h]
      exact ⟨_, rfl⟩
  obtain ⟨msg, hmsg⟩ := hc
  refine ⟨msg, hmsg, ?_⟩
  unfold main_run
  rw [hmsg]

/-- C4 witness: the amended behaviour at the concrete invalid window (5, 3). -/
theorem C4_window_abort_witness :
    ∃ msg, main_window_check 5 3 = some (msg, 0) ∧
      main_run none 5 3 = .aborted msg 0 :=
  C4_window_abort none 5 3 (Or.inl (by decide))

/-- C9: whenever read_csv fails (returns the Python value False, here none)
and the window is valid, main passes the failure value to make_plan
unchecked, iteration over False raises TypeError, and the run crashes
without writing any output. -/
theorem C9_read_failure_crashes (file : Option (List (List String))) (s e : Int)
    (hw : main_window_check s e = none) (hr : read_csv file = none) :
    main_run file s e = .crashed := by
  unfold main_run
  rw [hw]
  dsimp only
  rw [hr]

/-- C9 witness: a missing input file with the valid window (2025, 2030). -/
theorem C9_read_failure_crashes_witness :
    main_run none 2025 2030 = RunOutcome.crashed :=
  C9_read_failure_crashes none 2025 2030 (by rfl) (by rfl)

/-- C5: a non-blank data row whose first (version) cell is empty or
whitespace-only makes read_csv fail the whole read and return the False
sentinel (none), no matter how well-formed every other row is. -/
theorem C5_empty_version_fails (header row : List String)
    (rows : List (List String)) (hmem : row ∈ rows)
    (hnb : row.all (fun cell => strip cell = "") = false)
    (hv : ∃ c0 t, row = c0 :: t ∧ strip c0 = "") :
    read_csv (some (header :: rows)) = none := by
  obtain ⟨c0, t, hrow, hc0⟩ := hv
  show read_rows rows = none
  induction rows with
  | nil => exact absurd hmem (List.not_mem_nil row)
  | cons r rest ih =>
    rcases List.mem_cons.mp hmem with rfl | hmem2
    · subst hrow
      simp only [read_rows]
      rw [if_neg (by simp [hnb])]
      simp only [List.head?_cons]
      rw [if_pos hc0]
    · have hrest : read_rows rest = none := ih hmem2
      simp only [read_rows]
      by_cases hg : (r.isEmpty || r.all fun cell => strip cell = "") = true
      · rw [if_pos hg]
        exact hrest
      · rw [if_neg hg]
        cases hh : r.head? with
        | none => rfl
        | some c =>
          dsimp only
          by_cases hsc : strip c = ""
          · rw [if_pos hsc]
          · rw [if_neg hsc, hrest]
            rfl

/-- C5 witness: a file whose second data row is fine but whose first data
row has an empty version cell; the read fails entirely. -/
theorem C5_empty_version_fails_witness :
    read_csv (some [["ver", "a", "b", "c", "d", "e", "f"],
      ["", "roof"], ["1", "t", "n", "2025", "5", "100", ""]]) = none :=
  C5_empty_version_fails ["ver", "a", "b", "c", "d", "e", "f"] ["", "roof"]
    [["", "roof"], ["1", "t", "n", "2025", "5", "100", ""]]
    (List.mem_cons_self _ _) (by rfl) ⟨"", ["roof"], rfl, rfl⟩

/-- C8: no record appended by the expander has a year below start_year:
every record of a successful make_plan run carries at index 1 a year that is
at least start_year; occurrences below start_year only advance the cursor. -/
theorem C8_no_leakage (dl : List (List Field)) (s e : Int)
    (hwf : ∀ row ∈ dl,
      ((row[3]?).bind pyInt).isSome ∧ ((row[4]?).bind pyInt).isSome) :
    ∃ pl, make_plan dl s e = some pl ∧
      ∀ rec ∈ pl, ∃ y, rec[1]? = some (Field.int y) ∧ s ≤ y := by
  obtain ⟨pl, hpl⟩ := make_planRows_isSome dl [] hwf
  exact ⟨pl, hpl, make_plan_rec_year hpl⟩

/-- C8 witness: an item first due in 2020 with period 3 expanded into the
window [2025, 2030); all emitted years are at least 2025. -/
theorem C8_no_leakage_witness :
    ∃ pl, make_plan [[Field.str "1", Field.str "a", Field.str "b",
        Field.int 2020, Field.int 3, Field.str "100", Field.str ""]]
        2025 2030 = some pl ∧
      ∀ rec ∈ pl, ∃ y, rec[1]? = some (Field.int y) ∧ 2025 ≤ y :=
  C8_no_leakage _ 2025 2030 (by decide)

/-- C6: the gap filler is idempotent on record lists whose entries carry an
integer year at index 1 (the shape of every Output Record): running it a
second time on its own output appends nothing and returns the same list. -/
theorem C6_fill_idempotent (r : List (List Field)) (s e : Int)
    (h : ∀ rec ∈ r, ∃ y, rec[1]? = some (Field.int y)) :
    ∃ full, fill_dummydata r s e = some full ∧
      fill_dummydata full s e = some full := by
  obtain ⟨ys, hys⟩ := year_list_of_isSome h
  have h1 := fill_dummydata_eq s e hys
  refine ⟨_, h1, ?_⟩
  have h2 : year_list_of (r ++
      ((intRange s e).filter
        (fun y => decide (y ∉ ys.dedup.mergeSort (fun a b => decide (a ≤ b))))).map
          dummy_record) =
      some (ys ++ (intRange s e).filter
        (fun y => decide (y ∉ ys.dedup.mergeSort (fun a b => decide (a ≤ b))))) :=
    year_list_of_append hys (year_list_of_dummies _)
  have h3 := fill_dummydata_eq s e h2
  rw [h3]
  have h4 : (intRange s e).filter
      (fun y => decide (y ∉ (ys ++ (intRange s e).filter
        (fun y => decide (y ∉ ys.dedup.mergeSort
          (fun a b => decide (a ≤ b))))).dedup.mergeSort
            (fun a b => decide (a ≤ b)))) = [] := by
    rw [List.filter_eq_nil_iff]
    intro y hy
    simp only [decide_eq_true_eq, not_not]
    rw [mem_sorted_dedup, List.mem_append]
    by_cases hyys : y ∈ ys
    · exact Or.inl hyys
    · refine Or.inr (List.mem_filter.mpr ⟨hy, ?_⟩)
      simp only [decide_eq_true_eq]
      rw [mem_sorted_dedup]
      exact hyys
  rw [h4]
  simp

/-- C6 witness: one record with year 2025 in the window [2025, 2028); the
first run adds dummies for 2026 and 2027 and the second run adds nothing. -/
theorem C6_fill_idempotent_witness :
    ∃ full, fill_dummydata [[Field.str "1", Field.int 2025]] 2025 2028 =
        some full ∧
      fill_dummydata full 2025 2028 = some full :=
  C6_fill_idempotent [[Field.str "1", Field.int 2025]] 2025 2028
    (by intro rec hrec
        simp only [List.mem_singleton] at hrec
        subst hrec
        exact ⟨2025, rfl⟩)

/-- C3: coverage.  For a valid window and well-formed 7-field items, the
pipeline make_plan followed by fill_dummydata yields a record list in which
every year of [start_year, end_year) occurs at index 1 of some record. -/
theorem C3_coverage (dl : List (List Field)) (s e : Int)
    (hse : s < e) (hspan : e - s ≤ (limmit_num : Int))
    (hwf : ∀ row ∈ dl, row.length = 7 ∧
      ((row[3]?).bind pyInt).isSome ∧ ((row[4]?).bind pyInt).isSome) :
    ∃ pl full, make_plan dl s e = some pl ∧ fill_dummydata pl s e = some full ∧
      ∀ y : Int, s ≤ y → y < e → ∃ rec ∈ full, rec[1]? = some (Field.int y) := by
  obtain ⟨pl, hpl⟩ := make_planRows_isSome dl [] (fun row hr => (hwf row hr).2)
  have hyears : ∀ rec ∈ pl, ∃ y, rec[1]? = some (Field.int y) := by
    intro rec hrec
    obtain ⟨y, h1, _⟩ := make_plan_rec_year hpl rec hrec
    exact ⟨y, h1⟩
  obtain ⟨ys, hys⟩ := year_list_of_isSome hyears
  have hfill := fill_dummydata_eq s e hys
  refine ⟨pl, _, hpl, hfill, ?_⟩
  intro y hy1 hy2
  by_cases hmem : y ∈ ys
  · obtain ⟨rec, hrec, h1⟩ := (year_list_of_mem hys y).mp hmem
    exact ⟨rec, List.mem_append.mpr (Or.inl hrec), h1⟩
  · refine ⟨dummy_record y, ?_, rfl⟩
    refine List.mem_append.mpr (Or.inr (List.mem_map.mpr ⟨y, ?_, rfl⟩))
    refine List.mem_filter.mpr ⟨mem_intRange.mpr ⟨hy1, hy2⟩, ?_⟩
    simp only [decide_eq_true_eq]
    rw [mem_sorted_dedup]
    exact hmem

/-- C3 witness: the end-to-end example of the spec, one roof-repair item
first due 2025 with period 10 in the window [2025, 2046). -/
theorem C3_coverage_witness :
    ∃ pl full, make_plan [[Field.str "1", Field.str "roof",
        Field.str "roof repair", Field.int 2025, Field.int 10,
        Field.str "500000", Field.str ""]] 2025 2046 = some pl ∧
      fill_dummydata pl 2025 2046 = some full ∧
      ∀ y : Int, 2025 ≤ y → y < 2046 →
        ∃ rec ∈ full, rec[1]? = some (Field.int y) :=
  C3_coverage _ 2025 2046 (by decide) (by decide) (by decide)

/-- C7: fixed-field invariants.  For 7-field input rows, every record of the
final pipeline output, expanded or gap-filled, has quantity 1 at index 4,
the lump-sum unit at index 5 and actual amount 0 at index 7. -/
theorem C7_fixed_fields (dl : List (List Field)) (s e : Int)
    (h7 : ∀ row ∈ dl, row.length = 7)
    (hwf : ∀ row ∈ dl,
      ((row[3]?).bind pyInt).isSome ∧ ((row[4]?).bind pyInt).isSome) :
    ∃ pl full, make_plan dl s e = some pl ∧ fill_dummydata pl s e = some full ∧
      ∀ rec ∈ full, rec[4]? = some (Field.int 1) ∧
        rec[5]? = some (Field.str "式") ∧ rec[7]? = some (Field.int 0) := by
  obtain ⟨pl, hpl⟩ := make_planRows_isSome dl [] hwf
  have hyears : ∀ rec ∈ pl, ∃ y, rec[1]? = some (Field.int y) := by
    intro rec hrec
    obtain ⟨y, h1, _⟩ := make_plan_rec_year hpl rec hrec
    exact ⟨y, h1⟩
  obtain ⟨ys, hys⟩ := year_list_of_isSome hyears
  have hfill := fill_dummydata_eq s e hys
  refine ⟨pl, _, hpl, hfill, ?_⟩
  intro rec hrec
  rcases List.mem_append.mp hrec with hpl2 | hdum
  · rcases make_planRows_mem _ _ _ hpl rec hpl2 with hnil | ⟨row, hrow, hne, y, hy, rfl⟩
    · exact absurd hnil (List.not_mem_nil rec)
    · obtain ⟨a, b, c, d, e2, f, g, rfl⟩ := length_eq_seven (h7 row hrow)
      rw [tmplistOf_seven]
      exact ⟨rfl, rfl, rfl⟩
  · obtain ⟨y, hy, rfl⟩ := List.mem_map.mp hdum
    exact ⟨rfl, rfl, rfl⟩

/-- C7 witness: the invariants on the pipeline output for one concrete
item in the window [2025, 2030). -/
theorem C7_fixed_fields_witness :
    ∃ pl full, make_plan [[Field.str "1", Field.str "roof",
        Field.str "roof repair", Field.int 2026, Field.int 2,
        Field.str "500000", Field.str ""]] 2025 2030 = some pl ∧
      fill_dummydata pl 2025 2030 = some full ∧
      ∀ rec ∈ full, rec[4]? = some (Field.int 1) ∧
        rec[5]? = some (Field.str "式") ∧ rec[7]? = some (Field.int 0) :=
  C7_fixed_fields _ 2025 2030 (by decide) (by decide)

/-- C10: with a valid window the gap filler always returns at least
end_year - start_year records, hence a non-empty list, so the empty-data
branch of save_csv is unreachable in the pipeline, even on an empty item
list. -/
theorem C10_output_nonempty (dl : List (List Field)) (s e : Int)
    (hse : s < e) (hspan : e - s ≤ (limmit_num : Int))
    (hwf : ∀ row ∈ dl,
      ((row[3]?).bind pyInt).isSome ∧ ((row[4]?).bind pyInt).isSome) :
    ∃ pl full, make_plan dl s e = some pl ∧ fill_dummydata pl s e = some full ∧
      (e - s).toNat ≤ full.length ∧ full ≠ [] ∧ save_csv full = true := by
  obtain ⟨pl, hpl⟩ := make_planRows_isSome dl [] hwf
  have hyears : ∀ rec ∈ pl, ∃ y, rec[1]? = some (Field.int y) := by
    intro rec hrec
    obtain ⟨y, h1, _⟩ := make_plan_rec_year hpl rec hrec
    exact ⟨y, h1⟩
  obtain ⟨ys, hys⟩ := year_list_of_isSome hyears
  have hfill := fill_dummydata_eq s e hys
  have hlen : (e - s).toNat ≤ (pl ++
      ((intRange s e).filter
        (fun y => decide (y ∉ ys.dedup.mergeSort (fun a b => decide (a ≤ b))))).map
          dummy_record).length := by
    have hsplit := length_filter_split (intRange s e)
      (ys.dedup.mergeSort (fun a b => decide (a ≤ b)))
    have hkept : ((intRange s e).filter
        (fun y => decide (y ∈ ys.dedup.mergeSort (fun a b => decide (a ≤ b))))).length ≤
        (ys.dedup.mergeSort (fun a b => decide (a ≤ b))).length := by
      apply List.Subperm.length_le
      apply List.subperm_of_subset
      · exact (nodup_intRange s e).filter _
      · intro x hx
        have := (List.mem_filter.mp hx).2
        simpa using this
    have hu : (ys.dedup.mergeSort (fun a b => decide (a ≤ b))).length ≤ pl.length := by
      rw [List.length_mergeSort]
      calc ys.dedup.length ≤ ys.length := (List.dedup_sublist ys).length_le
        _ = pl.length := year_list_of_length hys
    rw [List.length_append, List.length_map]
    rw [length_intRange] at hsplit
    omega
  have hne : (pl ++ ((intRange s e).filter
      (fun y => decide (y ∉ ys.dedup.mergeSort (fun a b => decide (a ≤ b))))).map
        dummy_record) ≠ [] := by
    apply List.ne_nil_of_length_pos
    omega
  refine ⟨pl, _, hpl, hfill, hlen, hne, ?_⟩
  unfold save_csv
  rw [if_neg ?_]
  simp only [List.isEmpty_iff]
  exact hne

/-- C10 witness: an empty item list with the window [2025, 2030) still
yields five records (all dummies) and save_csv writes them. -/
theorem C10_output_nonempty_witness :
    ∃ pl full, make_plan [] 2025 2030 = some pl ∧
      fill_dummydata pl 2025 2030 = some full ∧
      ((2030 : Int) - 2025).toNat ≤ full.length ∧ full ≠ [] ∧
      save_csv full = true :=
  C10_output_nonempty [] 2025 2030 (by decide) (by decide) (by decide)

end MakePlandata
